import Mathlib

/-!
Shallow embedding of the neli netlink codec core:
- `src/lib.rs`: the `Nl` trait (serialize into a growing cursor buffer,
  deserialize from a cursor over a byte slice, `size`, `asize`) and its
  implementations for `u8`, `u16`, `u32` and `Vec<u8>`.
- `src/err.rs`: the error types `NlError`, `SerError`, `DeError`,
  `WrappedError`, the `Nlmsgerr` frame and `SerError::reconstruct`.
- `examples/genl_stream.rs`: the multicast-group membership step of
  `debug_stream`.

Bytes are `Nat` values below 256; machine integers are `Nat`/`Int` with
explicit `% 256`-style reductions where the width matters.  The host's
native byte order (`byteorder::NativeEndian`) is modelled as
little-endian, the byte order of the target platform.
-/

namespace Neli

/-! ### Error model from `src/err.rs`

The wrapped system-level error types (`std::io::Error`,
`std::str::Utf8Error`, `std::string::FromUtf8Error`,
`std::ffi::FromBytesWithNulError`) are external to the crate; they are
embedded as opaque carriers of the data relevant here. -/

/-- Opaque stand-in for `std::io::Error`; `read_exact`-style reads past the
end of a cursor produce `unexpectedEof`. -/
inductive IOErr
  | unexpectedEof
  | other (code : Nat)
deriving DecidableEq, Repr

/-- Opaque stand-in for `std::str::Utf8Error`. -/
structure Utf8Error where
  validUpTo : Nat
deriving DecidableEq, Repr

/-- Opaque stand-in for `std::string::FromUtf8Error`. -/
structure FromUtf8Error where
  bytes : List Nat
deriving DecidableEq, Repr

/-- Opaque stand-in for `std::ffi::FromBytesWithNulError`. -/
structure FromBytesWithNulError where
  code : Nat
deriving DecidableEq, Repr

/-- `err.rs`: `enum WrappedError`. -/
inductive WrappedError
  | IOError (e : IOErr)
  | StrUtf8Error (e : Utf8Error)
  | StringUtf8Error (e : FromUtf8Error)
  | FFINullError (e : FromBytesWithNulError)
deriving DecidableEq, Repr

/-- `err.rs`: `enum DeError`. -/
inductive DeError
  | Msg (s : String)
  | Wrapped (e : WrappedError)
  | UnexpectedEOB
  | BufferNotParsed
  | NullError
  | NoNullError
deriving DecidableEq, Repr

/-- `err.rs`: `enum SerError`; the `BytesMut` a variant carries is a byte
list. -/
inductive SerError
  | Msg (s : String) (b : List Nat)
  | Wrapped (e : WrappedError) (b : List Nat)
  | UnexpectedEOB (b : List Nat)
  | BufferNotFilled (b : List Nat)
deriving DecidableEq, Repr

/-- `err.rs`: `enum NlError`. -/
inductive NlError
  | Msg (s : String)
  | Wrapped (e : WrappedError)
  | NoAck
  | BadSeq
  | BadPid
  | Ser (e : SerError)
  | De (e : DeError)
deriving DecidableEq, Repr

/-! `err.rs`: the `wrapped_err_from!` macro invocation generates one
`From` impl per wrapped system error type. -/

/-- `impl From<std::io::Error> for WrappedError`. -/
def WrappedError.fromIoError (e : IOErr) : WrappedError :=
  WrappedError.IOError e

/-- `impl From<std::str::Utf8Error> for WrappedError`. -/
def WrappedError.fromStrUtf8 (e : Utf8Error) : WrappedError :=
  WrappedError.StrUtf8Error e

/-- `impl From<std::string::FromUtf8Error> for WrappedError`. -/
def WrappedError.fromStringUtf8 (e : FromUtf8Error) : WrappedError :=
  WrappedError.StringUtf8Error e

/-- `impl From<std::ffi::FromBytesWithNulError> for WrappedError`. -/
def WrappedError.fromNulError (e : FromBytesWithNulError) : WrappedError :=
  WrappedError.FFINullError e

/-! `err.rs`: the `err_from!` macro invocation generates the `From` impls
for `NlError`. -/

/-- `Wrapped => WrappedError { NlError::Wrapped }`. -/
def NlError.fromWrapped (e : WrappedError) : NlError :=
  NlError.Wrapped e

/-- `Wrapped => std::io::Error { |e| NlError::Wrapped(WrappedError::from(e)) }`. -/
def NlError.fromIoError (e : IOErr) : NlError :=
  NlError.Wrapped (WrappedError.fromIoError e)

/-- `Wrapped => std::str::Utf8Error { |e| NlError::Wrapped(WrappedError::from(e)) }`. -/
def NlError.fromStrUtf8 (e : Utf8Error) : NlError :=
  NlError.Wrapped (WrappedError.fromStrUtf8 e)

/-- `Wrapped => std::string::FromUtf8Error { |e| NlError::Wrapped(WrappedError::from(e)) }`. -/
def NlError.fromStringUtf8 (e : FromUtf8Error) : NlError :=
  NlError.Wrapped (WrappedError.fromStringUtf8 e)

/-- `Wrapped => std::ffi::FromBytesWithNulError { |e| NlError::Wrapped(WrappedError::from(e)) }`. -/
def NlError.fromNulError (e : FromBytesWithNulError) : NlError :=
  NlError.Wrapped (WrappedError.fromNulError e)

/-! ### Codec states from `src/lib.rs` -/

/-- `lib.rs`: `NlSerState(Cursor<Vec<u8>>)` — serialization writes append
bytes at the end of the growing vector. -/
structure NlSerState where
  buf : List Nat
deriving DecidableEq, Repr

/-- `lib.rs`: `NlDeState(Cursor<&[u8]>)` — a read position over a fixed
byte slice. -/
structure NlDeState where
  bytes : List Nat
  pos : Nat
deriving DecidableEq, Repr

/-- The `DeError` produced when a cursor read hits the end of the slice:
the `std::io::Error` with kind `UnexpectedEof` converted into the
deserialization error type. -/
def eofErr : DeError :=
  DeError.Wrapped (WrappedError.IOError IOErr.unexpectedEof)

/-! ### Primitive codec impls from `src/lib.rs`

Each Rust `impl Nl for T` becomes four functions: `serialize`,
`deserialize_with`, the trait-default `deserialize` (which passes
`Self::Input::default()`), and `size`; `asize` is the trait default
`alignto(self.size())`. -/

/-- `impl Nl for u8`: `serialize` writes the single byte. -/
def u8Serialize (v : Nat) (s : NlSerState) : Except SerError NlSerState :=
  Except.ok ⟨s.buf ++ [v % 256]⟩

/-- `impl Nl for u8`: `deserialize_with` reads one byte, failing with the
converted I/O error when the cursor is at the end. -/
def u8DeserializeWith (s : NlDeState) (_input : Unit) :
    Except DeError (Nat × NlDeState) :=
  if s.pos + 1 ≤ s.bytes.length then
    Except.ok (s.bytes.getD s.pos 0, ⟨s.bytes, s.pos + 1⟩)
  else
    Except.error eofErr

/-- Trait default `deserialize`: `deserialize_with(state, Self::Input::default())`. -/
def u8Deserialize (s : NlDeState) : Except DeError (Nat × NlDeState) :=
  u8DeserializeWith s default

/-- `impl Nl for u8`: `size` is `mem::size_of::<u8>()`. -/
def u8Size (_v : Nat) : Nat := 1

/-- `impl Nl for u16`: `serialize` writes the two native-endian
(little-endian) bytes. -/
def u16Serialize (v : Nat) (s : NlSerState) : Except SerError NlSerState :=
  Except.ok ⟨s.buf ++ [v % 256, v / 256 % 256]⟩

/-- `impl Nl for u16`: `deserialize_with` reads two native-endian bytes. -/
def u16DeserializeWith (s : NlDeState) (_input : Unit) :
    Except DeError (Nat × NlDeState) :=
  if s.pos + 2 ≤ s.bytes.length then
    Except.ok (s.bytes.getD s.pos 0 + 256 * s.bytes.getD (s.pos + 1) 0,
      ⟨s.bytes, s.pos + 2⟩)
  else
    Except.error eofErr

/-- Trait default `deserialize` for `u16`. -/
def u16Deserialize (s : NlDeState) : Except DeError (Nat × NlDeState) :=
  u16DeserializeWith s default

/-- `impl Nl for u16`: `size` is `mem::size_of::<u16>()`. -/
def u16Size (_v : Nat) : Nat := 2

/-- `impl Nl for u32`: `serialize` writes the four native-endian
(little-endian) bytes. -/
def u32Serialize (v : Nat) (s : NlSerState) : Except SerError NlSerState :=
  Except.ok ⟨s.buf ++ [v % 256, v / 256 % 256, v / 65536 % 256, v / 16777216 % 256]⟩

/-- `impl Nl for u32`: `deserialize_with` reads four native-endian bytes. -/
def u32DeserializeWith (s : NlDeState) (_input : Unit) :
    Except DeError (Nat × NlDeState) :=
  if s.pos + 4 ≤ s.bytes.length then
    Except.ok (s.bytes.getD s.pos 0 + 256 * s.bytes.getD (s.pos + 1) 0
        + 65536 * s.bytes.getD (s.pos + 2) 0
        + 16777216 * s.bytes.getD (s.pos + 3) 0,
      ⟨s.bytes, s.pos + 4⟩)
  else
    Except.error eofErr

/-- Trait default `deserialize` for `u32`. -/
def u32Deserialize (s : NlDeState) : Except DeError (Nat × NlDeState) :=
  u32DeserializeWith s default

/-- `impl Nl for u32`: `size` is `mem::size_of::<u32>()`. -/
def u32Size (_v : Nat) : Nat := 4

/-- `impl Nl for Vec<u8>`: `serialize` writes the whole slice. -/
def vecSerialize (v : List Nat) (s : NlSerState) : Except SerError NlSerState :=
  Except.ok ⟨s.buf ++ v⟩

/-- `impl Nl for Vec<u8>`: `deserialize_with` is
`state.take(input).read_to_end(&mut v)` — it reads *up to* `input` bytes,
stopping early at the end of the slice without error. -/
def vecDeserializeWith (s : NlDeState) (input : Nat) :
    Except DeError (List Nat × NlDeState) :=
  Except.ok ((s.bytes.drop s.pos).take input,
    ⟨s.bytes, s.pos + min input (s.bytes.length - s.pos)⟩)

/-- Trait default `deserialize` for `Vec<u8>`; `usize::default()` is `0`. -/
def vecDeserialize (s : NlDeState) : Except DeError (List Nat × NlDeState) :=
  vecDeserializeWith s default

/-- `impl Nl for Vec<u8>`: `size` is `self.len()`. -/
def vecSize (v : List Nat) : Nat := v.length

/-- Modelled from the spec: `alignto` lives in the `ffi` module, which is
not under `src/`; the spec states the aligned size is `size()` rounded up
to the protocol's 4-byte alignment unit. -/
def alignto (n : Nat) : Nat :=
  (n + 3) / 4 * 4

/-- Trait default `asize`: `alignto(self.size())`, for `u8`. -/
def u8Asize (v : Nat) : Nat := alignto (u8Size v)

/-- Trait default `asize` for `u16`. -/
def u16Asize (v : Nat) : Nat := alignto (u16Size v)

/-- Trait default `asize` for `u32`. -/
def u32Asize (v : Nat) : Nat := alignto (u32Size v)

/-- Trait default `asize` for `Vec<u8>`. -/
def vecAsize (v : List Nat) : Nat := alignto (vecSize v)

/-! ### The error frame `Nlmsgerr` from `src/err.rs`

`Nlmsgerr` composes `libc::c_int` with `Nlmsghdr<T, NlEmpty>`.  The
header type lives in the `nl` module, which is not under `src/`; its
shape and decoding are modelled from the spec (16-byte fixed part:
length u32, type u16, flags u16, sequence u32, port id u32; payload
forced empty for `NlEmpty`). -/

/-- `libc::c_int::type_size()`: the native width of a C `int`, 4 bytes. -/
def cIntTypeSize : Nat := 4

/-- Little-endian u16 at offset `i` of a byte list. -/
def readU16At (mem : List Nat) (i : Nat) : Nat :=
  mem.getD i 0 + 256 * mem.getD (i + 1) 0

/-- Little-endian u32 at offset `i` of a byte list. -/
def readU32At (mem : List Nat) (i : Nat) : Nat :=
  mem.getD i 0 + 256 * mem.getD (i + 1) 0 + 65536 * mem.getD (i + 2) 0
    + 16777216 * mem.getD (i + 3) 0

/-- Two's-complement reading of a 4-byte unsigned value as a signed
`c_int`. -/
def intOfU32 (u : Nat) : Int :=
  if u < 2147483648 then (u : Int) else (u : Int) - 4294967296

/-- Modelled from the spec: the netlink message header (`Nlmsghdr` in the
missing `nl` module) — total length, message type, flags, sequence
number, port id, payload bytes. -/
structure Nlmsghdr where
  nlLen : Nat
  nlType : Nat
  nlFlags : Nat
  nlSeq : Nat
  nlPid : Nat
  nlPayload : List Nat
deriving DecidableEq, Repr

/-- Modelled from the spec: `Nlmsghdr::size` — the 16-byte fixed header
plus the payload length. -/
def nlmsghdrSize (h : Nlmsghdr) : Nat :=
  16 + h.nlPayload.length

/-- Modelled from the spec: deserializing `Nlmsghdr<T, NlEmpty>` with a
size hint for its region — decode the five fixed fields from the 16-byte
header and force the payload empty (`NlEmpty`); fail with
`UnexpectedEOB` when the hinted region or the buffer cannot hold the
fixed header. -/
def nlmsghdrEmptyDeserialize (mem : List Nat) (hint : Nat) :
    Except DeError Nlmsghdr :=
  if 16 ≤ hint ∧ 16 ≤ mem.length then
    Except.ok ⟨readU32At mem 0, readU16At mem 4, readU16At mem 6,
      readU32At mem 8, readU32At mem 12, []⟩
  else
    Except.error DeError.UnexpectedEOB

/-- `err.rs`: `struct Nlmsgerr` — error code plus the echoed request
header. -/
structure Nlmsgerr where
  error : Int
  nlmsg : Nlmsghdr
deriving DecidableEq, Repr

/-- `err.rs`: `Nlmsgerr::deserialize` — read the `c_int` error code, then
the embedded header sized by `mem.len().checked_sub(c_int::type_size())`
(`UnexpectedEOB` when the buffer is shorter than the error code). -/
def nlmsgerrDeserialize (mem : List Nat) : Except DeError Nlmsgerr :=
  if cIntTypeSize ≤ mem.length then
    match nlmsghdrEmptyDeserialize (mem.drop cIntTypeSize)
        (mem.length - cIntTypeSize) with
    | Except.ok hdr => Except.ok ⟨intOfU32 (readU32At mem 0), hdr⟩
    | Except.error e => Except.error e
  else
    Except.error DeError.UnexpectedEOB

/-- `err.rs`: `Nlmsgerr::size` — `self.error.size() + self.nlmsg.size()`. -/
def nlmsgerrSize (v : Nlmsgerr) : Nat :=
  cIntTypeSize + nlmsghdrSize v.nlmsg

/-! ### `SerError::reconstruct` from `src/err.rs`

`BytesMut::unsplit` concatenates contiguous buffers; it is list append
here. -/

/-- `err.rs`: `SerError::reconstruct` — rebuild the attached buffer at the
current level from the optional surrounding pieces. -/
def SerError.reconstruct (self : SerError) (start stop : Option (List Nat)) :
    SerError :=
  match start, stop with
  | some s, some e =>
    match self with
    | SerError.BufferNotFilled b => SerError.BufferNotFilled (s ++ b ++ e)
    | SerError.UnexpectedEOB b => SerError.UnexpectedEOB (s ++ b ++ e)
    | SerError.Msg m b => SerError.Msg m (s ++ b ++ e)
    | SerError.Wrapped err b => SerError.Wrapped err (s ++ b ++ e)
  | some s, none =>
    match self with
    | SerError.BufferNotFilled b => SerError.BufferNotFilled (s ++ b)
    | SerError.UnexpectedEOB b => SerError.UnexpectedEOB (s ++ b)
    | SerError.Msg m b => SerError.Msg m (s ++ b)
    | SerError.Wrapped err b => SerError.Wrapped err (s ++ b)
  | none, some e =>
    match self with
    | SerError.BufferNotFilled b => SerError.BufferNotFilled (b ++ e)
    | SerError.UnexpectedEOB b => SerError.UnexpectedEOB (b ++ e)
    | SerError.Msg m b => SerError.Msg m (b ++ e)
    | SerError.Wrapped err b => SerError.Wrapped err (b ++ e)
  | none, none => self

/-! ### Multicast-group membership from `examples/genl_stream.rs` -/

/-- Modelled from the spec: `U32BitFlag` (crate root, not under `src/`) —
a single bit position in the 32-bit membership mask; the representable
range is 0–31 and construction of an out-of-range flag fails. -/
structure U32BitFlag where
  bit : Nat
deriving DecidableEq, Repr

/-- Modelled from the spec: `U32BitFlag::new` — fails when the bit index
exceeds the representable single-bit range of a `u32` mask. -/
def U32BitFlag.new (n : Nat) : Except Unit U32BitFlag :=
  if n ≤ 31 then Except.ok ⟨n⟩ else Except.error ()

/-- Modelled from the spec: `U32Bitmask::from(flag)` — the single-bit
32-bit mask for the flag. -/
def U32Bitmask.fromFlag (f : U32BitFlag) : Nat :=
  2 ^ f.bit % 4294967296

/-- A socket operation performed by the example's session. -/
inductive SocketCall
  | addMcastMembership (mask : Nat)
deriving DecidableEq, Repr

/-- `genl_stream.rs`: the membership step of `debug_stream` after group
resolution — build the `U32BitFlag` for the resolved id; on failure
return the "too large of a group number" error having made no socket
call, otherwise call `add_mcast_membership` with the mask.  The first
component records the socket calls performed. -/
def debugStreamMembership (id : Nat) : List SocketCall × Option NlError :=
  match U32BitFlag.new id with
  | Except.ok f =>
    ([SocketCall.addMcastMembership (U32Bitmask.fromFlag f)], none)
  | Except.error _ =>
    ([], some (NlError.Msg (toString id ++ " is too large of a group number")))

/-! ## Theorems for the claims -/

/-- C1: serializing a supported codec value (`u8`, `u16`, `u32`, byte
vector) and deserializing the produced bytes — with the vector's length
as the input hint for byte vectors — returns the original value. -/
theorem c1_roundtrip (a b c : Nat) (l : List Nat)
    (ha : a < 256) (hb : b < 65536) (hc : c < 4294967296) :
    (u8Serialize a ⟨[]⟩).map
        (fun st => (u8Deserialize ⟨st.buf, 0⟩).map Prod.fst)
      = Except.ok (Except.ok a) ∧
    (u16Serialize b ⟨[]⟩).map
        (fun st => (u16Deserialize ⟨st.buf, 0⟩).map Prod.fst)
      = Except.ok (Except.ok b) ∧
    (u32Serialize c ⟨[]⟩).map
        (fun st => (u32Deserialize ⟨st.buf, 0⟩).map Prod.fst)
      = Except.ok (Except.ok c) ∧
    (vecSerialize l ⟨[]⟩).map
        (fun st => (vecDeserializeWith ⟨st.buf, 0⟩ l.length).map Prod.fst)
      = Except.ok (Except.ok l) := by
  refine ⟨?_, ?_, ?_, ?_⟩
  · simp [u8Serialize, u8Deserialize, u8DeserializeWith, Except.map,
      List.getD]
    omega
  · simp [u16Serialize, u16Deserialize, u16DeserializeWith, Except.map,
      List.getD]
    omega
  · simp [u32Serialize, u32Deserialize, u32DeserializeWith, Except.map,
      List.getD]
    omega
  · simp [vecSerialize, vecDeserializeWith, Except.map]

/-- C1 witness at concrete values. -/
theorem c1_roundtrip_witness :
    (u8Serialize 250 ⟨[]⟩).map
        (fun st => (u8Deserialize ⟨st.buf, 0⟩).map Prod.fst)
      = Except.ok (Except.ok 250) ∧
    (u16Serialize 60000 ⟨[]⟩).map
        (fun st => (u16Deserialize ⟨st.buf, 0⟩).map Prod.fst)
      = Except.ok (Except.ok 60000) ∧
    (u32Serialize 4000000000 ⟨[]⟩).map
        (fun st => (u32Deserialize ⟨st.buf, 0⟩).map Prod.fst)
      = Except.ok (Except.ok 4000000000) ∧
    (vecSerialize [1, 2, 3] ⟨[]⟩).map
        (fun st =>
          (vecDeserializeWith ⟨st.buf, 0⟩ ([1, 2, 3] : List Nat).length).map
            Prod.fst)
      = Except.ok (Except.ok [1, 2, 3]) :=
  c1_roundtrip 250 60000 4000000000 [1, 2, 3]
    (by decide) (by decide) (by decide)

/-- C2: for every codec value, `size()` equals the number of bytes
`serialize` appends to the serialization buffer — 1 for `u8`, 2 for
`u16`, 4 for `u32`, the length for a byte vector. -/
theorem c2_size (a b c : Nat) (l : List Nat) (s : NlSerState) :
    (u8Serialize a s).map (fun st => st.buf.length)
      = Except.ok (s.buf.length + u8Size a) ∧
    (u16Serialize b s).map (fun st => st.buf.length)
      = Except.ok (s.buf.length + u16Size b) ∧
    (u32Serialize c s).map (fun st => st.buf.length)
      = Except.ok (s.buf.length + u32Size c) ∧
    (vecSerialize l s).map (fun st => st.buf.length)
      = Except.ok (s.buf.length + vecSize l) := by
  refine ⟨?_, ?_, ?_, ?_⟩ <;>
    simp [u8Serialize, u16Serialize, u32Serialize, vecSerialize,
      u8Size, u16Size, u32Size, vecSize, Except.map]

/-- C3 counterexample: deserializing a byte vector with input hint 5 from
a buffer holding only 3 remaining bytes succeeds with the shorter
3-element vector instead of returning a decode error. -/
theorem c3_counterexample :
    vecDeserializeWith ⟨[1, 2, 3], 0⟩ 5
      = Except.ok ([1, 2, 3], ⟨[1, 2, 3], 3⟩) ∧
    ([1, 2, 3] : List Nat).length < 5 :=
  ⟨rfl, by decide⟩

/-- C3 amended: fixed-width integer deserialization fails with a decode
error when the source has fewer bytes remaining than required, but byte
vector deserialization with input hint `n` never fails: it returns the
first `min n remaining` remaining bytes, a shorter vector when the
buffer is short. -/
theorem c3_amended (s : NlDeState) (n : Nat) :
    (s.bytes.length < s.pos + 1 → u8Deserialize s = Except.error eofErr) ∧
    (s.bytes.length < s.pos + 2 → u16Deserialize s = Except.error eofErr) ∧
    (s.bytes.length < s.pos + 4 → u32Deserialize s = Except.error eofErr) ∧
    (vecDeserializeWith s n).map (fun p => p.1.length)
      = Except.ok (min n (s.bytes.length - s.pos)) := by
  refine ⟨?_, ?_, ?_, ?_⟩
  · intro h
    simp [u8Deserialize, u8DeserializeWith]
    omega
  · intro h
    simp [u16Deserialize, u16DeserializeWith]
    omega
  · intro h
    simp [u32Deserialize, u32DeserializeWith]
    omega
  · simp [vecDeserializeWith, Except.map, Nat.min_comm]

/-- C3 amended witness at concrete inputs. -/
theorem c3_amended_witness :
    u16Deserialize ⟨[7], 0⟩ = Except.error eofErr ∧
    (vecDeserializeWith ⟨[1, 2, 3], 0⟩ 5).map (fun p => p.1.length)
      = Except.ok 3 :=
  ⟨(c3_amended ⟨[7], 0⟩ 0).2.1 (by decide),
   (c3_amended ⟨[1, 2, 3], 0⟩ 5).2.2.2⟩

/-- C4: for every codec value, `asize` equals `alignto` of `size`, is a
multiple of 4, is at least `size`, and is below `size + 4` — i.e. it is
exactly `size` rounded up to the next multiple of 4 (so it equals `size`
whenever `size` is already a multiple of 4). -/
theorem c4_alignment (a b c : Nat) (l : List Nat) :
    (u8Asize a = alignto (u8Size a) ∧ 4 ∣ u8Asize a ∧
      u8Size a ≤ u8Asize a ∧ u8Asize a < u8Size a + 4) ∧
    (u16Asize b = alignto (u16Size b) ∧ 4 ∣ u16Asize b ∧
      u16Size b ≤ u16Asize b ∧ u16Asize b < u16Size b + 4) ∧
    (u32Asize c = alignto (u32Size c) ∧ 4 ∣ u32Asize c ∧
      u32Size c ≤ u32Asize c ∧ u32Asize c < u32Size c + 4) ∧
    (vecAsize l = alignto (vecSize l) ∧ 4 ∣ vecAsize l ∧
      vecSize l ≤ vecAsize l ∧ vecAsize l < vecSize l + 4) := by
  refine ⟨⟨rfl, ?_, ?_, ?_⟩, ⟨rfl, ?_, ?_, ?_⟩, ⟨rfl, ?_, ?_, ?_⟩,
    ⟨rfl, ?_, ?_, ?_⟩⟩ <;>
  · simp only [u8Asize, u16Asize, u32Asize, vecAsize, u8Size, u16Size,
      u32Size, vecSize, alignto]
    omega

/-- C5: the 16- and 32-bit unsigned integer codecs write exactly the
native-endian (little-endian on the host) byte sequence of the value,
and decoding those bytes recovers the integer. -/
theorem c5_native_order (b c : Nat) (hb : b < 65536) (hc : c < 4294967296) :
    u16Serialize b ⟨[]⟩ = Except.ok ⟨[b % 256, b / 256 % 256]⟩ ∧
    u16Deserialize ⟨[b % 256, b / 256 % 256], 0⟩
      = Except.ok (b, ⟨[b % 256, b / 256 % 256], 2⟩) ∧
    u32Serialize c ⟨[]⟩
      = Except.ok ⟨[c % 256, c / 256 % 256, c / 65536 % 256,
          c / 16777216 % 256]⟩ ∧
    u32Deserialize
        ⟨[c % 256, c / 256 % 256, c / 65536 % 256, c / 16777216 % 256], 0⟩
      = Except.ok (c,
          ⟨[c % 256, c / 256 % 256, c / 65536 % 256, c / 16777216 % 256], 4⟩) := by
  refine ⟨rfl, ?_, rfl, ?_⟩
  · simp [u16Deserialize, u16DeserializeWith, List.getD]
    omega
  · simp [u32Deserialize, u32DeserializeWith, List.getD]
    omega

/-- C5 witness at concrete values. -/
theorem c5_native_order_witness :
    u16Serialize 4660 ⟨[]⟩ = Except.ok ⟨[52, 18]⟩ ∧
    u16Deserialize ⟨[52, 18], 0⟩ = Except.ok (4660, ⟨[52, 18], 2⟩) := by
  have h := c5_native_order 4660 0 (by decide) (by decide)
  exact ⟨h.1, h.2.1⟩

/-- C6: a successfully deserialized `Nlmsgerr` was read as the 4-byte
native signed error code followed by the embedded message header with an
empty payload, the header region sized as the total input length minus
the error-code size; and its `size()` is the error-code size plus the
embedded header's size. -/
theorem c6_nlmsgerr (mem : List Nat) (v : Nlmsgerr)
    (h : nlmsgerrDeserialize mem = Except.ok v) :
    v.nlmsg.nlPayload = [] ∧
    v.error = intOfU32 (readU32At mem 0) ∧
    cIntTypeSize ≤ mem.length ∧
    nlmsghdrEmptyDeserialize (mem.drop cIntTypeSize)
        (mem.length - cIntTypeSize) = Except.ok v.nlmsg ∧
    nlmsgerrSize v = cIntTypeSize + nlmsghdrSize v.nlmsg := by
  unfold nlmsgerrDeserialize at h
  split at h
  · rename_i hlen
    split at h
    · rename_i hdr hhdr
      cases h
      refine ⟨?_, rfl, hlen, hhdr, rfl⟩
      unfold nlmsghdrEmptyDeserialize at hhdr
      split at hhdr
      · cases hhdr; rfl
      · cases hhdr
    · cases h
  · cases h

/-- C6 witness: a concrete 20-byte error frame with code −5. -/
theorem c6_nlmsgerr_witness :
    (⟨-5, ⟨20, 2, 0, 1, 7, []⟩⟩ : Nlmsgerr).nlmsg.nlPayload = [] ∧
    (⟨-5, ⟨20, 2, 0, 1, 7, []⟩⟩ : Nlmsgerr).error
      = intOfU32 (readU32At
          [251, 255, 255, 255, 20, 0, 0, 0, 2, 0, 0, 0, 1, 0, 0, 0, 7, 0, 0, 0]
          0) ∧
    cIntTypeSize ≤ ([251, 255, 255, 255, 20, 0, 0, 0, 2, 0, 0, 0, 1, 0, 0, 0,
        7, 0, 0, 0] : List Nat).length ∧
    nlmsghdrEmptyDeserialize
        (([251, 255, 255, 255, 20, 0, 0, 0, 2, 0, 0, 0, 1, 0, 0, 0, 7, 0, 0,
          0] : List Nat).drop cIntTypeSize)
        (([251, 255, 255, 255, 20, 0, 0, 0, 2, 0, 0, 0, 1, 0, 0, 0, 7, 0, 0,
          0] : List Nat).length - cIntTypeSize)
      = Except.ok (⟨-5, ⟨20, 2, 0, 1, 7, []⟩⟩ : Nlmsgerr).nlmsg ∧
    nlmsgerrSize ⟨-5, ⟨20, 2, 0, 1, 7, []⟩⟩
      = cIntTypeSize + nlmsghdrSize (⟨-5, ⟨20, 2, 0, 1, 7, []⟩⟩ : Nlmsgerr).nlmsg :=
  c6_nlmsgerr
    [251, 255, 255, 255, 20, 0, 0, 0, 2, 0, 0, 0, 1, 0, 0, 0, 7, 0, 0, 0]
    ⟨-5, ⟨20, 2, 0, 1, 7, []⟩⟩ rfl

/-- C7: requesting a multicast-group membership with a group id outside
the representable single-bit range 0–31 of the 32-bit membership mask
fails with the "too large" error, with no socket call performed. -/
theorem c7_group_id (id : Nat) (h : 31 < id) :
    debugStreamMembership id
      = ([], some (NlError.Msg (toString id ++ " is too large of a group number"))) := by
  simp [debugStreamMembership, U32BitFlag.new, show ¬ id ≤ 31 by omega]

/-- C7 witness: group id 33 is rejected before any socket call. -/
theorem c7_group_id_witness :
    debugStreamMembership 33
      = ([], some (NlError.Msg (toString 33 ++ " is too large of a group number"))) :=
  c7_group_id 33 (by decide)

/-- C8: each system failure converted into `NlError` — I/O error, both
UTF-8 decoding error forms, and the null-termination error — becomes the
`Wrapped` variant carrying the original error value, preserving the
cause. -/
theorem c8_wrapped (a : IOErr) (b : Utf8Error) (c : FromUtf8Error)
    (d : FromBytesWithNulError) (w : WrappedError) :
    NlError.fromIoError a = NlError.Wrapped (WrappedError.IOError a) ∧
    NlError.fromStrUtf8 b = NlError.Wrapped (WrappedError.StrUtf8Error b) ∧
    NlError.fromStringUtf8 c
      = NlError.Wrapped (WrappedError.StringUtf8Error c) ∧
    NlError.fromNulError d = NlError.Wrapped (WrappedError.FFINullError d) ∧
    NlError.fromWrapped w = NlError.Wrapped w :=
  ⟨rfl, rfl, rfl, rfl, rfl⟩

/-- C9: for every codec type, the hint-less `deserialize` equals
`deserialize_with` at the `Default` value of the type's `Input`, and in
particular hint-less byte-vector deserialization always yields the empty
vector with the state unchanged. -/
theorem c9_default_hint :
    (∀ s, u8Deserialize s = u8DeserializeWith s ()) ∧
    (∀ s, u16Deserialize s = u16DeserializeWith s ()) ∧
    (∀ s, u32Deserialize s = u32DeserializeWith s ()) ∧
    (∀ s, vecDeserialize s = vecDeserializeWith s 0) ∧
    (∀ s, vecDeserialize s = Except.ok ([], s)) := by
  refine ⟨fun s => rfl, fun s => rfl, fun s => rfl, fun s => rfl, fun s => ?_⟩
  simp [vecDeserialize, vecDeserializeWith]

/-- C10: `SerError::reconstruct` keeps the variant and its message or
wrapped cause, only concatenating the optional start and end buffers
around the attached one; with both absent the error is returned
unchanged. -/
theorem c10_reconstruct (err : SerError) (s t : Option (List Nat)) :
    (∀ m b, SerError.reconstruct (SerError.Msg m b) s t
      = SerError.Msg m (s.getD [] ++ b ++ t.getD [])) ∧
    (∀ w b, SerError.reconstruct (SerError.Wrapped w b) s t
      = SerError.Wrapped w (s.getD [] ++ b ++ t.getD [])) ∧
    (∀ b, SerError.reconstruct (SerError.UnexpectedEOB b) s t
      = SerError.UnexpectedEOB (s.getD [] ++ b ++ t.getD [])) ∧
    (∀ b, SerError.reconstruct (SerError.BufferNotFilled b) s t
      = SerError.BufferNotFilled (s.getD [] ++ b ++ t.getD [])) ∧
    SerError.reconstruct err none none = err := by
  cases s <;> cases t <;>
    refine ⟨fun m b => ?_, fun w b => ?_, fun b => ?_, fun b => ?_, ?_⟩ <;>
    first
    | rfl
    | simp [SerError.reconstruct]

end Neli
